import Mathlib

/-!
Verification development for the 3DS-Chunker-Save-Fix converter
(`mc3ds/convert.py`): a shallow embedding of the CDB index-repair routine,
the chunk/block decoding pipeline and the block-mapping parser, together
with theorems settling the specified properties.
-/

namespace MC3DS

/-- Dimension constants (`OVERWORLD = 0`, `NETHER = 1`, `END = 2`). -/
def OVERWORLD : Int := 0

def NETHER : Int := 1

def END_ : Int := 2

/-- Modelled from the spec: `Position` (from the absent `classes.py`) is the
3-tuple (chunk_x, chunk_z, dimension); `parse_position` on an index entry's
raw position yields such a tuple, so entries here carry it directly. -/
abbrev Position := Int × Int × Int

/-- Modelled from the spec: an `IndexEntry` (parsed by the absent
`parser.py`) carries a Position, slot, subfile, an opaque parameters blob
(modelled as its bytes) and a corrupted flag.  `fix_cdb_index` in
`convert.py` mutates slot, subfile and parameters in place. -/
structure IndexEntry where
  position : Position
  slot : Nat
  subfile : Nat
  parameters : List Nat
  corrupted : Bool
deriving DecidableEq

/-- Modelled from the spec: the parts of `World` (absent `classes.py`) that
`fix_cdb_index` reads: `recovered` maps a Position to the ordered list of
(slot, subfile) recovery candidates, and `cdb[slot][subfile]._header.parameters`
is the header parameter blob of the record stored at (slot, subfile). -/
structure World where
  recovered : List (Position × List (Nat × Nat))
  cdb : Nat → Nat → List Nat

/-- Python exception outcomes that the embedded code can raise. -/
inductive PyErr where
  | attributeError
  | indexError
deriving DecidableEq

/-- Dictionary lookup `recovered[position]`: `none` models the `KeyError`
branch (`continue`). -/
def lookupRecovered (rec : List (Position × List (Nat × Nat))) (pos : Position) :
    Option (List (Nat × Nat)) :=
  (rec.find? (fun kv => kv.1 = pos)).map (fun kv => kv.2)

/-- One iteration of the `fix_cdb_index` loop body (convert.py lines
139-150): look the entry's position up in `recovered`; on `KeyError`
continue (entry unchanged, count 0); otherwise take `chunk_copies[0]`
(raising `IndexError` on an empty list) and overwrite the entry's slot,
subfile and parameters, counting one fixed chunk. -/
def fix_entry (w : World) (e : IndexEntry) : Except PyErr (IndexEntry × Nat) :=
  match lookupRecovered w.recovered e.position with
  | none => .ok (e, 0)
  | some [] => .error .indexError
  | some ((slot, subfile) :: _) =>
      .ok ({ e with slot := slot, subfile := subfile,
                    parameters := w.cdb slot subfile }, 1)

/-- `fix_cdb_index` (convert.py lines 133-154) over the in-memory list of
index entries: processes every entry in file order, returning the patched
entry list together with `chunks_fixed`.  (The file itself is rewritten only
when the count is positive; when the count is zero no entry was mutated, so
the returned list equals the input either way.) -/
def fix_cdb_index (w : World) : List IndexEntry → Except PyErr (List IndexEntry × Nat)
  | [] => .ok ([], 0)
  | e :: rest =>
    match fix_entry w e with
    | .error err => .error err
    | .ok (e', n) =>
      match fix_cdb_index w rest with
      | .error err => .error err
      | .ok (rest', m) => .ok (e' :: rest', n + m)

/-- World for the C1 counterexample: position (5,5,Overworld) has the single
recovery candidate (slot 2, subfile 9) whose record header is `[1,2,3]`. -/
def c1World : World := ⟨[((5, 5, 0), [(2, 9)])], fun _ _ => [1, 2, 3]⟩

/-- Index entry whose parameters already equal the candidate record's
header. -/
def c1Entry : IndexEntry := ⟨(5, 5, 0), 2, 9, [1, 2, 3], true⟩

/-- C1 counterexample: an entry whose slot, subfile and parameters already
equal the first candidate's is nonetheless counted: `fix_cdb_index` returns
a changed count of 1, not 0, so the claimed "only if the header differs"
guard does not exist in the code. -/
theorem c1_equal_params_still_counted :
    c1Entry.parameters = c1World.cdb 2 9 ∧
    c1Entry.slot = 2 ∧ c1Entry.subfile = 9 ∧
    fix_cdb_index c1World [c1Entry] = .ok ([c1Entry], 1) :=
  ⟨rfl, rfl, rfl, rfl⟩

/-- C1 (amended): for every entry whose Position is in `recovered`,
`fix_cdb_index` unconditionally selects the first candidate (slot, subfile),
overwrites the entry's slot, subfile and parameters with that record's
header, and increments the changed count — with no comparison against the
entry's existing parameters; entries whose Position is absent from
`recovered` are left unchanged and not counted. -/
theorem c1_unconditional_overwrite (w : World) (e : IndexEntry)
    (rest rest' : List IndexEntry) (m : Nat)
    (hrest : fix_cdb_index w rest = .ok (rest', m)) :
    (∀ s f cs, lookupRecovered w.recovered e.position = some ((s, f) :: cs) →
        fix_cdb_index w (e :: rest) =
          .ok ({ e with slot := s, subfile := f, parameters := w.cdb s f } :: rest',
               1 + m)) ∧
    (lookupRecovered w.recovered e.position = none →
        fix_cdb_index w (e :: rest) = .ok (e :: rest', m)) := by
  constructor
  · intro s f cs h
    simp [fix_cdb_index, fix_entry, h, hrest]
  · intro h
    simp [fix_cdb_index, fix_entry, h, hrest]

/-- Witness for `c1_unconditional_overwrite` at the C1 world: the entry with
matching parameters is rewritten to itself with count 1. -/
theorem c1_unconditional_overwrite_witness :
    fix_cdb_index c1World [c1Entry] =
      .ok ([{ c1Entry with slot := 2, subfile := 9, parameters := c1World.cdb 2 9 }],
           1 + 0) :=
  (c1_unconditional_overwrite c1World c1Entry [] [] 0 rfl).1 2 9 [] rfl

/-- Re-running `fix_entry` on an already-fixed entry reproduces it with the
same count: the overwrite does not change the entry's position, so the same
candidate is selected and writes the same slot, subfile and parameters. -/
theorem fix_entry_stable (w : World) (e e' : IndexEntry) (n : Nat)
    (h : fix_entry w e = .ok (e', n)) : fix_entry w e' = .ok (e', n) := by
  cases hl : lookupRecovered w.recovered e.position with
  | none =>
    simp only [fix_entry, hl, Except.ok.injEq, Prod.mk.injEq] at h
    obtain ⟨rfl, rfl⟩ := h
    simp [fix_entry, hl]
  | some copies =>
    cases copies with
    | nil => simp [fix_entry, hl] at h
    | cons c rest =>
      obtain ⟨s, f⟩ := c
      simp only [fix_entry, hl, Except.ok.injEq, Prod.mk.injEq] at h
      obtain ⟨rfl, rfl⟩ := h
      simp [fix_entry, hl]

/-- C2 (amended): a second run of `fix_cdb_index` on the index produced by a
first run returns the same patched index and the SAME changed count as the
first run — the on-disk index contents are idempotent, but the reported
count is not reset to 0 because the code counts every entry whose Position
appears in `recovered`, without comparing against the existing
parameters. -/
theorem c2_second_run_same_count (w : World) :
    ∀ entries out n, fix_cdb_index w entries = .ok (out, n) →
      fix_cdb_index w out = .ok (out, n) := by
  intro entries
  induction entries with
  | nil =>
    intro out n h
    simp only [fix_cdb_index, Except.ok.injEq, Prod.mk.injEq] at h
    obtain ⟨rfl, rfl⟩ := h
    simp [fix_cdb_index]
  | cons e rest ih =>
    intro out n h
    simp only [fix_cdb_index] at h
    cases he : fix_entry w e with
    | error err => rw [he] at h; simp at h
    | ok p =>
      obtain ⟨e', k⟩ := p
      rw [he] at h
      cases hr : fix_cdb_index w rest with
      | error err => rw [hr] at h; simp at h
      | ok q =>
        obtain ⟨rest', m⟩ := q
        rw [hr] at h
        simp only [Except.ok.injEq, Prod.mk.injEq] at h
        obtain ⟨rfl, rfl⟩ := h
        simp [fix_cdb_index, fix_entry_stable w e e' k he, ih rest' m hr]

/-- World for the C2 counterexample: one recovery candidate (2, 9) for
position (5,5,Overworld) with record header `[7]`. -/
def c2World : World := ⟨[((5, 5, OVERWORLD), [(2, 9)])], fun _ _ => [7]⟩

/-- A stale index entry for position (5,5,Overworld). -/
def c2Entry : IndexEntry := ⟨(5, 5, OVERWORLD), 0, 0, [], true⟩

/-- The entry as rewritten by the first repair run. -/
def c2Fixed : IndexEntry := ⟨(5, 5, OVERWORLD), 2, 9, [7], true⟩

/-- C2 counterexample: the first run fixes the entry and returns count 1,
and the second run on the already-patched index returns count 1 again — not
the claimed 0. -/
theorem c2_second_run_returns_one :
    fix_cdb_index c2World [c2Entry] = .ok ([c2Fixed], 1) ∧
    fix_cdb_index c2World [c2Fixed] = .ok ([c2Fixed], 1) ∧ (1 : Nat) ≠ 0 :=
  ⟨rfl, rfl, by decide⟩

/-- Witness for `c2_second_run_same_count` at the C2 world: re-running on
the patched index reproduces it with count 1. -/
theorem c2_second_run_same_count_witness :
    fix_cdb_index c2World [c2Fixed] = .ok ([c2Fixed], 1) :=
  c2_second_run_same_count c2World [c2Entry] [c2Fixed] 1 rfl

/-- World for the C4 scenario: the database has one parseable record at
slot 2 / subfile 9 claiming Position (5,5,Overworld), so the recovery scan
maps that Position to the single candidate (2, 9). -/
def c4World : World := ⟨[((5, 5, OVERWORLD), [(2, 9)])], fun _ _ => [4, 2]⟩

/-- C4: with the index holding one corrupted entry for (5,5,Overworld) and
the single candidate (slot 2, subfile 9), `fix_cdb_index` rewrites that
entry's slot to 2, subfile to 9 and parameters to the record's header, and
returns a changed count of 1. -/
theorem c4_repair_scenario :
    fix_cdb_index c4World [⟨(5, 5, OVERWORLD), 0, 3, [0], true⟩] =
      .ok ([⟨(5, 5, OVERWORLD), 2, 9, c4World.cdb 2 9, true⟩], 1) := rfl

/-- Destination block descriptor (the anvil library's `Block`): a namespace
string, a block name and a property mapping. -/
structure Block where
  ns : String
  name : String
  properties : List (String × String)
deriving DecidableEq

/-- `Block("minecraft", "glass")`, the marker block of the disabled
corrupted-fill branch (convert.py line 36). -/
def corrupted_block : Block := ⟨"minecraft", "glass", []⟩

/-- `Block("minecraft", "netherite_block")`, substituted when a BlockID is
missing from the mapping (convert.py line 72). -/
def unknown_block_sentinel : Block := ⟨"minecraft", "netherite_block", []⟩

/-- Modelled from the spec: an `Entry`'s payload (the absent `classes.py` /
`parser.py`) as consumed by `place_blocks`: one byte array per vertical
subchunk, holding the 4096 block-id bytes followed by the 2048 packed
data-nibble bytes. -/
structure Entry where
  blocks : List (List Nat)

/-- The block mapping loaded from `blocks.json`, as an association list. -/
abbrev BlockMap := List ((Nat × Nat) × Block)

/-- One `chunk.set_block(block, x, y, z)` call, recorded in order. -/
abbrev SetCell := Block × Nat × Nat × Nat

/-- One `unknown block ...` diagnostic printed to stderr (convert.py lines
67-71): it names the BlockID pair, the (x, y, z) cell coordinate and the
dimension. -/
structure Diagnostic where
  blockId : Nat × Nat
  cell : Nat × Nat × Nat
  dimension : Int
deriving DecidableEq

/-- Dict lookup `self.blocks[block_id]`; `none` models the `KeyError`
branch. -/
def lookupBlock (bm : BlockMap) (k : Nat × Nat) : Option Block :=
  (bm.find? (fun kv => kv.1 = k)).map (fun kv => kv.2)

/-- Cell-coordinate decoding (convert.py lines 52-54): `x = position >> 8`,
`z = (position & 0xF0) >> 4`, `y = (position & 0xF) + 16 * subchunk_y`,
returned as (x, y, z). -/
def decode_xyz (subchunk_y position : Nat) : Nat × Nat × Nat :=
  (position >>> 8, (position &&& 0xF) + 16 * subchunk_y, (position &&& 0xF0) >>> 4)

/-- Data-nibble extraction (convert.py lines 55-60): read the byte at
offset `0x1000 + position // 2`; an even position takes the low nibble and
an odd position the high nibble.  `none` models the `IndexError` raised
when the byte array is shorter than the packed layout requires. -/
def extract_nibble (blocks : List Nat) (position : Nat) : Option Nat :=
  match blocks[0x1000 + position / 2]? with
  | none => none
  | some block_byte =>
      some (if position % 2 == 0 then block_byte &&& 0xF else block_byte >>> 4)

/-- The body of the inner loop of `place_blocks` (convert.py lines 51-73)
for one cell: decode the coordinate, read the block-id byte and the data
nibble, skip the pair (0, 0), otherwise look the pair up in the mapping —
substituting the netherite-block sentinel and recording one diagnostic on
`KeyError` — and set the cell. -/
def place_cell (bm : BlockMap) (dim : Int) (subchunk_y : Nat) (blocks : List Nat)
    (position : Nat) : Except PyErr (List SetCell × List Diagnostic) :=
  let xyz := decode_xyz subchunk_y position
  match blocks[position]? with
  | none => .error .indexError
  | some block =>
    match extract_nibble blocks position with
    | none => .error .indexError
    | some block_data =>
      let block_id := (block, block_data)
      if block_id ≠ (0, 0) then
        match lookupBlock bm block_id with
        | some b => .ok ([(b, xyz)], [])
        | none => .ok ([(unknown_block_sentinel, xyz)], [⟨block_id, xyz, dim⟩])
      else .ok ([], [])

/-- The cells set by the loop from index `position` for `count` further
indices, in loop order, together with the diagnostics emitted. -/
def place_cells (bm : BlockMap) (dim : Int) (subchunk_y : Nat) (blocks : List Nat) :
    Nat → Nat → Except PyErr (List SetCell × List Diagnostic)
  | _, 0 => .ok ([], [])
  | position, count + 1 =>
    match place_cell bm dim subchunk_y blocks position with
    | .error e => .error e
    | .ok (c, d) =>
      match place_cells bm dim subchunk_y blocks (position + 1) count with
      | .error e => .error e
      | .ok (cs, ds) => .ok (c ++ cs, d ++ ds)

/-- One subchunk's loop `for position, block in enumerate(blocks[:0x1000])`:
the slice caps the iteration at min(0x1000, len(blocks)) cells. -/
def place_subchunk (bm : BlockMap) (dim : Int) (subchunk_y : Nat)
    (blocks : List Nat) : Except PyErr (List SetCell × List Diagnostic) :=
  place_cells bm dim subchunk_y blocks 0 (min 0x1000 blocks.length)

/-- The outer loop `for subchunk_y, blocks in enumerate(self.entry.blocks)`. -/
def place_subchunks (bm : BlockMap) (dim : Int) :
    Nat → List (List Nat) → Except PyErr (List SetCell × List Diagnostic)
  | _, [] => .ok ([], [])
  | subchunk_y, bs :: rest =>
    match place_subchunk bm dim subchunk_y bs with
    | .error e => .error e
    | .ok (c, d) =>
      match place_subchunks bm dim (subchunk_y + 1) rest with
      | .error e => .error e
      | .ok (cs, ds) => .ok (c ++ cs, d ++ ds)

/-- The marker fill of the disabled corrupted branch (convert.py lines
41-47): every cell of the 8 subchunks set to the glass marker block. -/
def corrupted_fill : List SetCell :=
  (List.range 8).flatMap (fun subchunk_y =>
    (List.range 0x1000).map (fun position =>
      (corrupted_block, decode_xyz subchunk_y position)))

/-- `ChunkConverter.place_blocks` (convert.py lines 38-73).  The guard of
the fill branch is literally `if False and self.corrupted`, so control
always reaches the else branch, which evaluates `self.entry.blocks` — an
`AttributeError` when the entry is the `None` of a corrupted placeholder
(convert.py line 195). -/
def place_blocks (bm : BlockMap) (entry : Option Entry) (corrupted : Bool)
    (dim : Int) : Except PyErr (List SetCell × List Diagnostic) :=
  if false && corrupted then
    .ok (corrupted_fill, [])
  else
    match entry with
    | none => .error .attributeError
    | some e => place_subchunks bm dim 0 e.blocks

/-- C3: for a "corrupted, unrecovered" placeholder — built by `convert` as
`ChunkConverter(position, None, blocks, True)` — `place_blocks` does not
emit an empty chunk: the marker fill is dead code behind
`if False and self.corrupted`, and the else branch dereferences
`self.entry.blocks` on `None`, raising `AttributeError`. -/
theorem c3_placeholder_raises (bm : BlockMap) (dim : Int) :
    place_blocks bm none true dim = .error .attributeError := by
  simp [place_blocks]

/-- Masking with 0xF is reduction modulo 16. -/
theorem land_f_eq_mod (p : Nat) : p &&& 0xF = p % 16 := by
  have h := Nat.and_pow_two_sub_one_eq_mod p 4
  norm_num at h
  exact h

/-- Shifting right by 8 is division by 256. -/
theorem shiftRight8_eq_div (p : Nat) : p >>> 8 = p / 256 := by
  have h := Nat.shiftRight_eq_div_pow p 8
  norm_num at h
  exact h

/-- Masking with 0xF0 then shifting right by 4 extracts the second base-16
digit. -/
theorem land_f0_shift_eq (p : Nat) : (p &&& 0xF0) >>> 4 = p / 16 % 16 := by
  have h1 : (p &&& 0xF0) >>> 4 = (p >>> 4) &&& 0xF := by
    apply Nat.eq_of_testBit_eq
    intro i
    rw [Nat.testBit_shiftRight, Nat.testBit_and, Nat.testBit_and, Nat.testBit_shiftRight,
      show (0xF0 : Nat) = 15 <<< 4 from by norm_num [Nat.shiftLeft_eq], Nat.testBit_shiftLeft]
    simp
  rw [h1, land_f_eq_mod, Nat.shiftRight_eq_div_pow]

/-- The decode map of `place_blocks`, over all 8 subchunks and all 4096
cell indices, landing in the 16 × 128 × 16 coordinate box. -/
def decodeFin (sp : Fin 8 × Fin 4096) : Fin 16 × Fin 128 × Fin 16 :=
  (⟨(decode_xyz sp.1.val sp.2.val).1, by
      have h2 := sp.2.isLt
      simp only [decode_xyz, shiftRight8_eq_div]
      omega⟩,
   ⟨(decode_xyz sp.1.val sp.2.val).2.1, by
      have h1 := sp.1.isLt
      have h2 := sp.2.isLt
      simp only [decode_xyz, land_f_eq_mod]
      omega⟩,
   ⟨(decode_xyz sp.1.val sp.2.val).2.2, by
      have h2 := sp.2.isLt
      simp only [decode_xyz, land_f0_shift_eq]
      omega⟩)

/-- C5: the cell-coordinate decoding x = index >> 8, z = (index & 0xF0) >> 4,
y = (index & 0xF) + 16 * subchunk, over all 8 subchunks and 4096 cell
indices, is a bijection onto the 16 × 16 × 128 chunk volume: every cell is
produced exactly once, with no gaps or overlaps. -/
theorem c5_decode_bijective : Function.Bijective decodeFin := by
  rw [Fintype.bijective_iff_injective_and_card]
  refine ⟨?_, by simp only [Fintype.card_prod, Fintype.card_fin]⟩
  rintro ⟨⟨s1, hs1⟩, ⟨p1, hp1⟩⟩ ⟨⟨s2, hs2⟩, ⟨p2, hp2⟩⟩ hab
  simp only [decodeFin, decode_xyz, Prod.mk.injEq, Fin.mk.injEq] at hab ⊢
  obtain ⟨hx, hy, hz⟩ := hab
  rw [shiftRight8_eq_div, shiftRight8_eq_div] at hx
  rw [land_f_eq_mod, land_f_eq_mod] at hy
  rw [land_f0_shift_eq, land_f0_shift_eq] at hz
  omega

/-- C6: for a cell whose BlockID pair (other than (0,0)) is present in the
mapping, `place_blocks` sets exactly the table's descriptor and emits no
diagnostic; for a pair absent from the mapping it sets the fixed
netherite-block sentinel and emits exactly one diagnostic naming the
BlockID, the (x, y, z) cell coordinate and the dimension — in both cases
the loop continues normally (no error is raised). -/
theorem c6_translate_hit_and_miss (bm : BlockMap) (dim : Int) (sy : Nat)
    (bs : List Nat) (p i d : Nat)
    (hid : bs[p]? = some i) (hd : extract_nibble bs p = some d)
    (hne : (i, d) ≠ ((0 : Nat), (0 : Nat))) :
    (∀ b, lookupBlock bm (i, d) = some b →
        place_cell bm dim sy bs p = .ok ([(b, decode_xyz sy p)], [])) ∧
    (lookupBlock bm (i, d) = none →
        place_cell bm dim sy bs p =
          .ok ([(unknown_block_sentinel, decode_xyz sy p)],
               [⟨(i, d), decode_xyz sy p, dim⟩])) := by
  constructor
  · intro b hb
    simp [place_cell, hid, hd, hb]
    exact fun h1 h2 => hne (by simp [h1, h2])
  · intro hb
    simp [place_cell, hid, hd, hb]
    exact fun h1 h2 => hne (by simp [h1, h2])

/-- The mapping used by the C6 witness: BlockID (1, 0) is stone. -/
def c6Map : BlockMap := [((1, 0), ⟨"minecraft", "stone", []⟩)]

/-- A subchunk byte array whose cell 0 has block id 1 and data nibble 0. -/
def c6Bytes : List Nat := 1 :: List.replicate 0x17FF 0

/-- Cell 0 of `c6Bytes` holds block id 1. -/
theorem c6Bytes_id : c6Bytes[0]? = some 1 := by
  show (1 :: List.replicate 0x17FF (0 : Nat))[0]? = some 1
  rw [List.getElem?_cons_zero]

/-- The data-nibble byte of cell 0 of `c6Bytes` is 0, so its nibble is 0. -/
theorem c6Bytes_nibble : extract_nibble c6Bytes 0 = some 0 := by
  have h1 : c6Bytes[0x1000 + 0 / 2]? = some 0 := by
    show (1 :: List.replicate 0x17FF (0 : Nat))[0x1000 + 0 / 2]? = some 0
    rw [show (0x1000 + 0 / 2 : Nat) = 0xFFF + 1 from rfl, List.getElem?_cons_succ,
        List.getElem?_replicate]
    norm_num
  unfold extract_nibble
  rw [h1]
  decide

/-- Witness for `c6_translate_hit_and_miss`: at cell 0 of `c6Bytes` the pair
(1, 0) is found in `c6Map` and the stone descriptor is set with no
diagnostic. -/
theorem c6_translate_hit_and_miss_witness :
    place_cell c6Map 0 0 c6Bytes 0 =
      .ok ([(⟨"minecraft", "stone", []⟩, decode_xyz 0 0)], []) :=
  (c6_translate_hit_and_miss c6Map 0 0 c6Bytes 0 1 0 c6Bytes_id c6Bytes_nibble
    (by decide)).1 ⟨"minecraft", "stone", []⟩ rfl

/-- C7: the data nibble for cell `position` is read from the byte at offset
0x1000 + position / 2 of the subchunk payload, even positions taking the
low nibble and odd positions the high nibble; hence for a data byte 0x37 at
pair-index k, cell 2k resolves data value 7 and cell 2k+1 resolves data
value 3. -/
theorem c7_nibble_extraction (bs : List Nat) (k : Nat)
    (h : bs[0x1000 + k]? = some 0x37) :
    extract_nibble bs (2 * k) = some 7 ∧ extract_nibble bs (2 * k + 1) = some 3 := by
  constructor
  · have h2 : 0x1000 + 2 * k / 2 = 0x1000 + k := by omega
    have h3 : 2 * k % 2 = 0 := by omega
    simp [extract_nibble, h2, h3, h]
    decide
  · have h2 : 0x1000 + (2 * k + 1) / 2 = 0x1000 + k := by omega
    have h3 : (2 * k + 1) % 2 = 1 := by omega
    simp [extract_nibble, h2, h3, h]

/-- A subchunk byte array all of whose bytes are 0x37. -/
def c7Bytes : List Nat := List.replicate 0x1800 0x37

/-- Witness for `c7_nibble_extraction` at pair-index 0 of `c7Bytes`. -/
theorem c7_nibble_extraction_witness :
    extract_nibble c7Bytes 0 = some 7 ∧ extract_nibble c7Bytes 1 = some 3 :=
  c7_nibble_extraction c7Bytes 0 (by
    show (List.replicate 0x1800 (0x37 : Nat))[0x1000 + 0]? = some 0x37
    rw [List.getElem?_replicate]
    norm_num)

/-- An in-range index into an all-zero byte array reads the byte 0. -/
theorem getElem?_of_all_zero (bs : List Nat) (h0 : ∀ b ∈ bs, b = 0) (i : Nat)
    (hi : i < bs.length) : bs[i]? = some 0 := by
  rw [List.getElem?_eq_getElem hi]
  exact congrArg some (h0 _ (List.getElem_mem hi))

/-- A cell of an all-zero, full-size subchunk byte array decodes to the
pair (0, 0) and is skipped. -/
theorem place_cell_zero (bm : BlockMap) (dim : Int) (sy : Nat) (bs : List Nat)
    (h0 : ∀ b ∈ bs, b = 0) (hlen : bs.length = 0x1800) (p : Nat)
    (hp : p < 0x1000) : place_cell bm dim sy bs p = .ok ([], []) := by
  have h1 : bs[p]? = some 0 := getElem?_of_all_zero bs h0 p (by omega)
  have h2 : bs[0x1000 + p / 2]? = some 0 := getElem?_of_all_zero bs h0 _ (by omega)
  simp [place_cell, extract_nibble, h1, h2]

/-- All cells of an all-zero subchunk are skipped. -/
theorem place_cells_zero (bm : BlockMap) (dim : Int) (sy : Nat) (bs : List Nat)
    (h0 : ∀ b ∈ bs, b = 0) (hlen : bs.length = 0x1800) :
    ∀ count p, p + count ≤ 0x1000 →
      place_cells bm dim sy bs p count = .ok ([], []) := by
  intro count
  induction count with
  | zero => intro p _; rfl
  | succ n ih =>
    intro p hp
    simp only [place_cells, place_cell_zero bm dim sy bs h0 hlen p (by omega),
      ih (p + 1) (by omega), List.nil_append]

/-- All subchunks of an all-zero entry contribute no cells and no
diagnostics. -/
theorem place_subchunks_zero (bm : BlockMap) (dim : Int) :
    ∀ bss sy, (∀ bs ∈ bss, bs.length = 0x1800 ∧ ∀ b ∈ bs, b = 0) →
      place_subchunks bm dim sy bss = .ok ([], []) := by
  intro bss
  induction bss with
  | nil => intro sy _; rfl
  | cons bs rest ih =>
    intro sy h
    obtain ⟨hlen, h0⟩ := h bs (List.mem_cons_self bs rest)
    have hsub : place_subchunk bm dim sy bs = .ok ([], []) := by
      unfold place_subchunk
      rw [hlen]
      exact place_cells_zero bm dim sy bs h0 hlen (min 0x1000 0x1800) 0 (by norm_num)
    simp only [place_subchunks, hsub,
      ih (sy + 1) (fun b hb => h b (List.mem_cons_of_mem bs hb)), List.nil_append]

/-- C8: a cell whose (block id, data value) pair is (0, 0) is skipped during
translation and never set; consequently an entry whose subchunk byte arrays
are all zero (with the full 0x1800-byte layout) produces zero set cells and
no diagnostics after decode. -/
theorem c8_air_pair_skipped (bm : BlockMap) (dim : Int) :
    (∀ sy bs p, bs[p]? = some 0 → extract_nibble bs p = some 0 →
        place_cell bm dim sy bs p = .ok ([], [])) ∧
    (∀ e : Entry, (∀ bs ∈ e.blocks, bs.length = 0x1800 ∧ ∀ b ∈ bs, b = 0) →
        place_blocks bm (some e) false dim = .ok ([], [])) := by
  constructor
  · intro sy bs p h1 h2
    simp [place_cell, h1, h2]
  · intro e he
    show place_subchunks bm dim 0 e.blocks = .ok ([], [])
    exact place_subchunks_zero bm dim e.blocks 0 he

/-- A chunk entry with all-zero block-id and data arrays. -/
def c8Entry : Entry := ⟨List.replicate 8 (List.replicate 0x1800 0)⟩

/-- Witness for `c8_air_pair_skipped`: the all-zero entry decodes to zero
set cells. -/
theorem c8_air_pair_skipped_witness :
    place_blocks [] (some c8Entry) false OVERWORLD = .ok ([], []) :=
  (c8_air_pair_skipped [] OVERWORLD).2 c8Entry (by
    intro bs hbs
    have hb : bs = List.replicate 0x1800 0 := List.eq_of_mem_replicate hbs
    subst hb
    exact ⟨by rw [List.length_replicate], fun b hb2 => List.eq_of_mem_replicate hb2⟩)

/-- C10: a cell whose block-id byte is 0 but whose data nibble is some
d ≠ 0 is NOT treated as air: the pair (0, d) fails the (0, 0) test, is
looked up in the mapping, and when absent triggers the unknown-block
diagnostic and the sentinel substitution, and the cell IS set in the output
chunk. -/
theorem c10_zero_id_nonzero_data (bm : BlockMap) (dim : Int) (sy : Nat)
    (bs : List Nat) (p d : Nat) (hid : bs[p]? = some 0)
    (hd : extract_nibble bs p = some d) (hdne : d ≠ 0)
    (habs : lookupBlock bm (0, d) = none) :
    place_cell bm dim sy bs p =
      .ok ([(unknown_block_sentinel, decode_xyz sy p)],
           [⟨(0, d), decode_xyz sy p, dim⟩]) := by
  simp [place_cell, hid, hd, habs, hdne]

/-- A subchunk byte array whose cell 0 has block id 0 and data nibble 5. -/
def c10Bytes : List Nat := 0 :: List.replicate 0x17FF 5

/-- Cell 0 of `c10Bytes` holds block id 0. -/
theorem c10Bytes_id : c10Bytes[0]? = some 0 := by
  show ((0 : Nat) :: List.replicate 0x17FF (5 : Nat))[0]? = some 0
  rw [List.getElem?_cons_zero]

/-- The data nibble of cell 0 of `c10Bytes` is 5. -/
theorem c10Bytes_nibble : extract_nibble c10Bytes 0 = some 5 := by
  have h1 : c10Bytes[0x1000 + 0 / 2]? = some 5 := by
    show ((0 : Nat) :: List.replicate 0x17FF (5 : Nat))[0x1000 + 0 / 2]? = some 5
    rw [show (0x1000 + 0 / 2 : Nat) = 0xFFF + 1 from rfl, List.getElem?_cons_succ,
        List.getElem?_replicate]
    norm_num
  unfold extract_nibble
  rw [h1]
  decide

/-- Witness for `c10_zero_id_nonzero_data`: with an empty mapping, the
(0, 5) cell is set to the sentinel with one diagnostic. -/
theorem c10_zero_id_nonzero_data_witness :
    place_cell [] OVERWORLD 0 c10Bytes 0 =
      .ok ([(unknown_block_sentinel, decode_xyz 0 0)],
           [⟨(0, 5), decode_xyz 0 0, OVERWORLD⟩]) :=
  c10_zero_id_nonzero_data [] OVERWORLD 0 c10Bytes 0 5 c10Bytes_id c10Bytes_nibble
    (by decide) rfl

/-- Python `str.split(sep)` for a single-character separator, on the
character list: always returns at least one (possibly empty) part, one more
part per separator occurrence. -/
def py_split (sep : Char) : List Char → List (List Char)
  | [] => [[]]
  | c :: rest =>
    match py_split sep rest with
    | [] => [[]]
    | cur :: acc => if c == sep then [] :: cur :: acc else (c :: cur) :: acc

/-- Python `int(s)` restricted to plain decimal digit strings (the sign and
surrounding-whitespace forms are not exercised by the mapping table);
`none` models `ValueError`. -/
def py_nat (cs : List Char) : Option Nat :=
  if cs.isEmpty then none
  else if cs.all Char.isDigit then
    some (cs.foldl (fun acc c => 10 * acc + (c.toNat - Char.toNat '0')) 0)
  else none

/-- Python `int(s)` with an optional leading minus sign. -/
def py_int (cs : List Char) : Option Int :=
  match cs with
  | '-' :: rest => (py_nat rest).map (fun n => -(n : Int))
  | _ => (py_nat cs).map (fun n => (n : Int))

/-- True when the characters avoid both square brackets. -/
def no_brackets (cs : List Char) : Bool := cs.all (fun c => !(c == '[' || c == ']'))

/-- The compiled regex `^([^\[\]]+)(?:\[([^\[\]]*)\])?$` (convert.py line
108): a nonempty bracket-free name, optionally followed by a bracketed
bracket-free property string that ends the value.  `none` models match
failure; the second component is capture group 2 (`None` when the optional
group did not participate). -/
def block_json_match (value : List Char) : Option (List Char × Option (List Char)) :=
  let name := value.takeWhile (fun c => !(c == '[' || c == ']'))
  let rest := value.drop name.length
  if name.isEmpty then none
  else
    match rest with
    | [] => some (name, none)
    | c :: t =>
      if c == '[' then
        match t with
        | [] => none
        | _ :: _ =>
          if t.getLast? == some ']' && no_brackets t.dropLast then
            some (name, some t.dropLast)
          else none
      else none

/-- Python `dict` assignment `d[k] = v`: an existing key is updated in
place, a new key is appended in insertion order. -/
def dict_insert {α β : Type} [BEq α] (m : List (α × β)) (k : α) (v : β) :
    List (α × β) :=
  if m.any (fun x => x.1 == k) then
    m.map (fun x => if x.1 == k then (x.1, v) else x)
  else m ++ [(k, v)]

/-- `item.split("=")` must produce exactly a key and a value; any other
length makes the `dict(...)` constructor raise `ValueError`. -/
def split_eq_pair (item : List Char) : Except String (List Char × List Char) :=
  match py_split '=' item with
  | [k, v] => .ok (k, v)
  | _ => .error "dictionary update sequence"

/-- `dict(item.split("=") for item in raw_nbt_data.split(","))`
(convert.py line 123). -/
def parse_nbt_data (raw : List Char) : Except String (List (String × String)) :=
  (py_split ',' raw).foldlM (fun m item => do
    let (k, v) ← split_eq_pair item
    pure (dict_insert m k.asString v.asString)) []

/-- The per-value parse (convert.py lines 116-128): regex match (raising
`ValueError("invalid block")` on failure), property parsing when group 2 is
truthy, then `namespace, block = name.split(":")`. -/
def parse_block_value (new : List Char) : Except String Block :=
  match block_json_match new with
  | none => .error "invalid block"
  | some (name, raw_nbt_data) => do
    let nbt_data ←
      match raw_nbt_data with
      | some raw => if raw.isEmpty then pure [] else parse_nbt_data raw
      | none => pure ([] : List (String × String))
    match py_split ':' name with
    | [ns, block] => .ok ⟨ns.asString, block.asString, nbt_data⟩
    | _ => .error "unpack"

/-- The per-key parse (convert.py lines 112-113):
`block_str, data_str = numerical_id.split(":")` — raising unless exactly
two parts — then `int` on both parts. -/
def parse_block_key (numerical_id : List Char) : Except String (Int × Int) :=
  match py_split ':' numerical_id with
  | [block_str, data_str] =>
    match py_int block_str, py_int data_str with
    | some b, some d => .ok (b, d)
    | _, _ => .error "invalid literal for int"
  | _ => .error "unpack"

/-- The loop of `parse_block_json` (convert.py lines 111-128) over the
key/value pairs of the JSON blocks object, accumulating the dict. -/
def parse_block_items (blocks : List ((Int × Int) × Block)) :
    List (String × String) → Except String (List ((Int × Int) × Block))
  | [] => .ok blocks
  | (numerical_id, new) :: rest =>
    match parse_block_key numerical_id.toList with
    | .error e => .error e
    | .ok block_id =>
      match parse_block_value new.toList with
      | .error e => .error e
      | .ok b => parse_block_items (dict_insert blocks block_id b) rest

/-- `parse_block_json` (convert.py lines 107-130). -/
def parse_block_json (raw_blocks : List (String × String)) :
    Except String (List ((Int × Int) × Block)) :=
  parse_block_items [] raw_blocks

/-- A key that does not split into exactly two colon-separated parts makes
the key parse raise. -/
theorem parse_block_key_error (k : List Char)
    (h : (py_split ':' k).length ≠ 2) :
    ∃ msg, parse_block_key k = .error msg := by
  unfold parse_block_key
  rcases hs : py_split ':' k with _ | ⟨a, _ | ⟨b, _ | ⟨c, tl⟩⟩⟩
  · exact ⟨"unpack", rfl⟩
  · exact ⟨"unpack", rfl⟩
  · exact absurd (by rw [hs]; rfl : (py_split ':' k).length = 2) h
  · exact ⟨"unpack", rfl⟩

/-- A value that fails the `name[props]` regex makes the value parse raise
`ValueError("invalid block")`. -/
theorem parse_block_value_error (v : List Char) (h : block_json_match v = none) :
    parse_block_value v = .error "invalid block" := by
  unfold parse_block_value
  rw [h]

/-- If any item of the table has a malformed key or a regex-failing value,
the whole load fails, whatever the accumulator. -/
theorem parse_block_items_any_error :
    ∀ (l : List (String × String)) (acc : List ((Int × Int) × Block)) (k v : String),
      (k, v) ∈ l →
      ((py_split ':' k.toList).length ≠ 2 ∨ block_json_match v.toList = none) →
      ∃ msg, parse_block_items acc l = .error msg := by
  intro l
  induction l with
  | nil => intro acc k v hmem _; simp at hmem
  | cons kv rest ih =>
    obtain ⟨k1, v1⟩ := kv
    intro acc k v hmem hbad
    rcases List.mem_cons.mp hmem with heq | hmem2
    · injection heq with h1 h2
      subst h1
      subst h2
      rcases hbad with hk | hv
      · obtain ⟨msg, hmsg⟩ := parse_block_key_error k.toList hk
        exact ⟨msg, by unfold parse_block_items; rw [hmsg]⟩
      · cases hkey : parse_block_key k.toList with
        | error e => exact ⟨e, by unfold parse_block_items; rw [hkey]⟩
        | ok bid =>
          exact ⟨"invalid block", by
            unfold parse_block_items
            rw [hkey, parse_block_value_error v.toList hv]⟩
    · cases hkey : parse_block_key k1.toList with
      | error e => exact ⟨e, by unfold parse_block_items; rw [hkey]⟩
      | ok bid =>
        cases hval : parse_block_value v1.toList with
        | error e => exact ⟨e, by unfold parse_block_items; rw [hkey, hval]⟩
        | ok b =>
          obtain ⟨msg, hmsg⟩ := ih (dict_insert acc bid b) k v hmem2 hbad
          exact ⟨msg, by unfold parse_block_items; rw [hkey, hval]; exact hmsg⟩

/-- C9: `parse_block_json` fails the whole load when any key does not split
into exactly two colon-separated parts or any value fails the
`name[props]` grammar; and on well-formed tables, "1:0" mapped to
"minecraft:stone" yields BlockID (1, 0) with namespace minecraft, name
stone and no properties, while "5:2" mapped to
"minecraft:wood[variant=birch]" yields the property set {variant: birch}. -/
theorem c9_parse_block_json (raw : List (String × String)) (k v : String) :
    ((k, v) ∈ raw →
      ((py_split ':' k.toList).length ≠ 2 ∨ block_json_match v.toList = none) →
      ∃ msg, parse_block_json raw = .error msg) ∧
    parse_block_json [("1:0", "minecraft:stone")] =
      .ok [((1, 0), ⟨"minecraft", "stone", []⟩)] ∧
    parse_block_json [("5:2", "minecraft:wood[variant=birch]")] =
      .ok [((5, 2), ⟨"minecraft", "wood", [("variant", "birch")]⟩)] := by
  refine ⟨fun hmem hbad => parse_block_items_any_error raw [] k v hmem hbad, rfl, rfl⟩

/-- Witness for `c9_parse_block_json`: a key with three colon-separated
parts fails the whole load. -/
theorem c9_parse_block_json_witness :
    ∃ msg, parse_block_json [("1:2:3", "minecraft:stone")] = .error msg :=
  (c9_parse_block_json [("1:2:3", "minecraft:stone")] "1:2:3" "minecraft:stone").1
    (by simp) (Or.inl (by decide))

end MC3DS
